import Mathlib

/-!
Shallow embedding of the adaptive retrieval-orchestration engine of
`python_service/agent` (graph.py, router.py, nodes/grade.py, nodes/merge.py,
nodes/rewrite.py, nodes/generate.py, nodes/websearch.py, nodes/retrieve.py,
nodes/search_strategy.py, retrievers/job_retriever.py).

External collaborators (the LLM, the vector retriever, the web-search API) are
modelled as oracle values or oracle functions supplied as parameters; an
exception raised by a collaborator is an explicit failure value, which the node
bodies catch exactly where the Python `try/except` blocks do.  Python floats
are rationals, dict keys that may be absent are `Option` with `Option.getD`
mirroring `dict.get(key, default)`.
-/

namespace Chinchilla

/-- Outcome of one LLM chat call (`llm.invoke(messages)` in the nodes):
either the completion text, or a raised exception. -/
inductive LLMResult where
  | ok (content : String)
  | failure
  deriving DecidableEq, Repr

/-- A retrieved document (`langchain.schema.Document`): page content plus the
metadata fields the core logic reads.  `relevanceScore` is
`metadata.get("relevance_score", 0)` with `none` for an absent key;
`origin` is `metadata.get("origin")`; all remaining metadata is kept opaque
in `meta`. -/
structure Doc where
  pageContent : String
  relevanceScore : Option ℚ
  origin : Option String
  meta : String
  deriving DecidableEq, Repr

/-- Python substring test `needle in hay`, on the character lists. -/
def strContainsAux (needle : List Char) : List Char → Bool
  | [] => needle.isEmpty
  | c :: rest => needle.isPrefixOf (c :: rest) || strContainsAux needle rest

/-- Python `needle in hay` on strings. -/
def strContains (hay needle : String) : Bool :=
  strContainsAux needle.data hay.data

/-- Python `str.strip()`: drop leading and trailing whitespace. -/
def py_strip (s : String) : String :=
  ⟨(((s.data.dropWhile Char.isWhitespace).reverse).dropWhile
      Char.isWhitespace).reverse⟩

/-- Python `str.lower()` as used on the yes/no completion (ASCII folding). -/
def py_lower (s : String) : String := ⟨s.data.map Char.toLower⟩

/-- Python slicing `s[:n]` (by characters, as Python slices code points). -/
def py_slice (s : String) (n : Nat) : String := ⟨s.data.take n⟩

/-- The grade node built by `make_grade_node` (nodes/grade.py).  Stage A:
return "no" when no documents were retrieved, or when no document's
`relevance_score` reaches `hooks.min_relevance_threshold`.  Stage B: ask the
LLM (the prompt built from the top-3 documents and the rewritten query feeds
the oracle), take `decision = response.content.strip().lower()` and return
"yes" when `"yes" in decision`, else "no"; a raised call returns "yes". -/
def grade_node (min_relevance_threshold : ℚ) (documents : List Doc)
    (llm : LLMResult) : String :=
  if documents.isEmpty then "no"
  else
    let relevant_docs := documents.filter
      (fun doc => min_relevance_threshold ≤ doc.relevanceScore.getD 0)
    if relevant_docs.isEmpty then "no"
    else
      match llm with
      | .ok content =>
        let decision := py_lower (py_strip content)
        if strContains decision "yes" then "yes" else "no"
      | .failure => "yes"

/-- Result record of `assess_search_quality` (nodes/search_strategy.py). -/
structure QualityInfo where
  quality : String
  avg_score : ℚ
  count : Nat
  deriving DecidableEq, Repr

/-- assess_search_quality (nodes/search_strategy.py): empty list is
("low", 0, 0); otherwise the average of the documents' relevance scores and
the count decide the bucket. -/
def assess_search_quality (documents : List Doc) (min_threshold : ℚ) :
    QualityInfo :=
  if documents.isEmpty then { quality := "low", avg_score := 0, count := 0 }
  else
    let scores := documents.map (fun doc => doc.relevanceScore.getD 0)
    let avg_score : ℚ :=
      if ¬ scores.isEmpty then scores.sum / (scores.length : ℚ) else 0
    let count := documents.length
    let quality :=
      if 5 ≤ count ∧ 7/10 ≤ avg_score then "high"
      else if 3 ≤ count ∧ min_threshold ≤ avg_score then "medium"
      else "low"
    { quality := quality, avg_score := avg_score, count := count }

/-- Average relevance score of a result set, the quantity
`sum(scores) / len(scores) if scores else 0` that assess_search_quality
computes (0 for an empty list). -/
def avgRelevance (documents : List Doc) : ℚ :=
  if documents.isEmpty then 0
  else (documents.map (fun doc => doc.relevanceScore.getD 0)).sum /
    (documents.length : ℚ)

/-- Relevance score written into a document's metadata by
`ElderlyJobRetriever.retrieve` (retrievers/job_retriever.py):
`max(0.0, 1.0 - (distance / 2.0))` from the vector store's distance. -/
def relevance_score (distance : ℚ) : ℚ := max 0 (1 - distance / 2)

/-- Content fingerprint used by `_deduplicate_docs` (nodes/merge.py):
`doc.page_content[:100].strip()`. -/
def fingerprint (doc : Doc) : String := py_strip (py_slice doc.pageContent 100)

/-- Loop of `_deduplicate_docs` (nodes/merge.py), with the `seen` set of
fingerprints made explicit as a list. -/
def dedupAux : List Doc → List String → List Doc
  | [], _ => []
  | doc :: rest, seen =>
    let fp := fingerprint doc
    if fp ∈ seen then dedupAux rest seen
    else doc :: dedupAux rest (fp :: seen)

/-- `_deduplicate_docs` (nodes/merge.py): keep the first document for every
content fingerprint (an empty input short-circuits to []). -/
def deduplicate_docs (docs : List Doc) : List Doc :=
  if docs.isEmpty then [] else dedupAux docs []

/-- The `seen` set after `_deduplicate_docs` has processed `docs` starting
from `seen` (every processed fingerprint ends up in it). -/
def seenAfter : List Doc → List String → List String
  | [], seen => seen
  | doc :: rest, seen =>
    let fp := fingerprint doc
    if fp ∈ seen then seenAfter rest seen else seenAfter rest (fp :: seen)

/-- The merge node built by `make_merge_node` (nodes/merge.py): concatenate
retrieved documents before web documents, then deduplicate. -/
def merge_node (documents web_documents : List Doc) : List Doc :=
  deduplicate_docs (documents ++ web_documents)

/-- The rewrite node built by `make_rewrite_node` (nodes/rewrite.py): an empty
query short-circuits to ""; otherwise the trimmed LLM completion on success
and the original query unchanged when the call raises.  The message list
(system prompt, trimmed history, question) only feeds the LLM oracle. -/
def rewrite_node (query : String) (llm : LLMResult) : String :=
  if query = "" then ""
  else
    match llm with
    | .ok content => py_strip content
    | .failure => query

/-- What the generate node writes back: the answer and the source previews. -/
structure GenerateResult where
  answer : String
  sources : List (String × String)
  deriving DecidableEq, Repr

/-- Fixed apology answer of nodes/generate.py's exception handler. -/
def apologyAnswer : String := "죄송합니다. 답변 생성 중 오류가 발생했습니다."

/-- The generate node built by `make_generate_node` (nodes/generate.py): on
success the trimmed answer plus previews (content[:200], metadata) of the
first five of documents ++ web_documents; when the LLM call raises, the fixed
apology string and an empty source list. -/
def generate_node (documents web_documents : List Doc) (llm : LLMResult) :
    GenerateResult :=
  let all_docs := documents ++ web_documents
  match llm with
  | .ok content =>
    { answer := py_strip content,
      sources := (all_docs.take 5).map
        (fun doc => (py_slice doc.pageContent 200, doc.meta)) }
  | .failure => { answer := apologyAnswer, sources := [] }

/-- The expression `state.get("rewritten_query") or state.get("query", "")`
shared by the retrieve, enhanced-retrieve and websearch nodes: an absent or
empty (falsy) rewritten query falls back to the original query. -/
def effective_query (rewritten_query : Option String) (query : String) :
    String :=
  match rewritten_query with
  | some rq => if rq = "" then query else rq
  | none => query

/-- Structured user profile (the dict read by the enhanced retrieve node). -/
structure Profile where
  age : Option Nat
  gender : Option String
  location : Option String
  deriving DecidableEq, Repr

/-- Input handed to `retriever.invoke` by the retrieve nodes. -/
structure RetrieverInput where
  query : String
  profile : Option Profile
  deriving DecidableEq, Repr

/-- Python `str.split()`: split on whitespace and drop empty pieces. -/
def py_str_split (s : String) : List String :=
  (s.split Char.isWhitespace).filter (fun piece => piece ≠ "")

/-- The retriever-input construction of `enhanced_retrieve_node`
(nodes/search_strategy.py): level 0 sends the full profile, level 1 keeps only
the first word of the location (`location.split()[0]`, which raises an
IndexError — `.error` here — when the location is whitespace only), level 2
keeps age and gender and drops the location, level 3 and above (or a missing
profile) sends no profile. -/
def build_retriever_input (query : String) (profile : Option Profile)
    (filter_level : Nat) : Except Unit RetrieverInput :=
  match profile with
  | some p =>
    if filter_level = 0 then .ok { query := query, profile := some p }
    else if filter_level = 1 then
      let location := p.location.getD ""
      if location ≠ "" then
        match (py_str_split location).head? with
        | some province =>
          .ok { query := query, profile := some { p with location := some province } }
        | none => .error ()
      else .ok { query := query, profile := some p }
    else if filter_level = 2 then
      .ok { query := query,
            profile := some { age := p.age, gender := some (p.gender.getD "other"),
                              location := none } }
    else .ok { query := query, profile := none }
  | none => .ok { query := query, profile := none }

/-- State patch returned by the enhanced retrieve node
(`avg_relevance_score` is absent from the patch on the empty-query and
exception paths). -/
structure RetrieveResult where
  documents : List Doc
  search_quality : String
  avg_relevance_score : Option ℚ
  deriving DecidableEq, Repr

/-- The enhanced retrieve node built by `make_enhanced_retrieve_node`
(nodes/search_strategy.py): empty effective query returns ([], "low") without
invoking the retriever; otherwise the retriever runs on the level-adjusted
input and the result set is assessed; any raised exception degrades to
([], "low"). -/
def enhanced_retrieve_node (retriever : RetrieverInput → Except Unit (List Doc))
    (min_relevance_threshold : ℚ) (rewritten_query : Option String)
    (query : String) (profile : Option Profile) (filter_level : Nat) :
    RetrieveResult :=
  let q := effective_query rewritten_query query
  if q = "" then { documents := [], search_quality := "low", avg_relevance_score := none }
  else
    match build_retriever_input q profile filter_level >>= retriever with
    | .ok documents =>
      let info := assess_search_quality documents min_relevance_threshold
      { documents := documents, search_quality := info.quality,
        avg_relevance_score := some info.avg_score }
    | .error _ =>
      { documents := [], search_quality := "low", avg_relevance_score := none }

/-- The plain retrieve node built by `make_retrieve_node` (nodes/retrieve.py):
empty effective query returns [] without invoking the retriever; a raised
retrieval degrades to []. -/
def retrieve_node (retriever : RetrieverInput → Except Unit (List Doc))
    (rewritten_query : Option String) (query : String)
    (profile : Option Profile) : List Doc :=
  let q := effective_query rewritten_query query
  if q = "" then []
  else
    match retriever { query := q, profile := profile } with
    | .ok documents => documents
    | .error _ => []

/-- Entries appended to `retrieval_trace` by the websearch node. -/
inductive TraceEntry where
  | webSearchSkipped (reason : String)
  | webSearchDone (query : String) (doc_count : Nat)
  | webSearchError (query : String)
  deriving DecidableEq, Repr

/-- State patch returned by the websearch node. -/
structure WebSearchResult where
  web_documents : List Doc
  retrieval_trace : List TraceEntry
  deriving DecidableEq, Repr

/-- The websearch node built by `make_websearch_node` (nodes/websearch.py):
an empty effective query or a missing SerpAPI key appends a skip trace entry
(reason "empty_query" when the query is empty) and returns no web documents,
without calling the search API; a successful search wraps the raw text as one
web document; a raised search appends an error entry and degrades to []. -/
def websearch_node (serp_api_key : String)
    (search : String → Except Unit String) (trace0 : List TraceEntry)
    (rewritten_query : Option String) (query : String) : WebSearchResult :=
  let q := effective_query rewritten_query query
  if q = "" ∨ serp_api_key = "" then
    let reason := if q = "" then "empty_query" else "missing_serp_api_key"
    { web_documents := [], retrieval_trace := trace0 ++ [.webSearchSkipped reason] }
  else
    match search q with
    | .ok results =>
      let web_docs : List Doc :=
        [{ pageContent := results, relevanceScore := none,
           origin := some "web_search", meta := "web_search" }]
      { web_documents := web_docs,
        retrieval_trace := trace0 ++ [.webSearchDone q web_docs.length] }
    | .error _ =>
      { web_documents := [], retrieval_trace := trace0 ++ [.webSearchError q] }

/-- The named states of the compiled workflow (graph.py), `endNode` being
LangGraph's END. -/
inductive Node where
  | rewrite | retrieve | grade | widenFilter | incrementRetry
  | websearch | generate | endNode
  deriving DecidableEq, Repr

/-- The control-relevant part of the mutable AgentState dict: each key is
`Option`-valued because the dict may lack it, and every read goes through the
same default as the corresponding Python `state.get(key, default)`. -/
structure GState where
  retryCount : Option Nat
  filterLevel : Option Nat
  gradeDecision : Option String
  filtersWidened : Option Bool
  deriving DecidableEq, Repr

/-- route_after_grade (graph.py): grade "yes" goes to generate; otherwise
widen filters while `filter_level < 3`, then increment the retry counter
while `retry_count < 2`, and finally fall back to websearch.  (The function
also reads `search_quality`, but only to log it.) -/
def route_after_grade (s : GState) : Node :=
  let grade_decision := s.gradeDecision.getD "no"
  let retry_count := s.retryCount.getD 0
  let filter_level := s.filterLevel.getD 0
  if grade_decision = "yes" then .generate
  else if filter_level < 3 then .widenFilter
  else if retry_count < 2 then .incrementRetry
  else .websearch

/-- increment_retry (graph.py): increment the retry counter and reset the
filter level to 0. -/
def increment_retry (s : GState) : GState :=
  { s with retryCount := some (s.retryCount.getD 0 + 1), filterLevel := some 0 }

/-- The filter widen node built by `make_filter_widen_node`
(nodes/search_strategy.py): move to the next filter level, clamped at 3, and
mark `filters_widened`. -/
def filter_widen_node (s : GState) : GState :=
  let current_level := s.filterLevel.getD 0
  let next_level := current_level + 1
  let next_level := if 3 ≤ next_level then 3 else next_level
  { s with filterLevel := some next_level, filtersWidened := some true }

/-- A point of the workflow traversal: the node about to execute, the state
dict, and how many times the grade node has run (the index into the decision
oracle). -/
structure Config where
  node : Node
  state : GState
  gradeCount : Nat
  deriving DecidableEq, Repr

/-- One transition of the decision semantics documented by build_graph's and
route_after_grade's docstrings (graph.py): rewrite → retrieve → grade, grade
routed by route_after_grade on the k-th decision `oracle k`, widen_filter →
retrieve, increment_retry → rewrite, websearch → generate, generate → END.
The grade case is an over-approximation of the program: grade.py actually
returns its decision as a bare string that LangGraph refuses to apply as a
state update, aborting the run — `stepProgram` below models that actual
behaviour, and `stepProgram_running_reachable` shows every configuration the
program reaches is also reachable here, so invariants quantified over all
states reachable under `step` cover the program's runs. -/
def step (oracle : Nat → String) (c : Config) : Config :=
  match c.node with
  | .rewrite => { c with node := .retrieve }
  | .retrieve => { c with node := .grade }
  | .grade =>
    let s := { c.state with gradeDecision := some (oracle c.gradeCount) }
    { node := route_after_grade s, state := s, gradeCount := c.gradeCount + 1 }
  | .widenFilter => { c with node := .retrieve, state := filter_widen_node c.state }
  | .incrementRetry => { c with node := .rewrite, state := increment_retry c.state }
  | .websearch => { c with node := .generate }
  | .generate => { c with node := .endNode }
  | .endNode => c

/-- The initial configuration: dispatch (router.py) initialises the state with
`retry_count = 0` and `filter_level = 0` and the graph's entry point is the
rewrite node. -/
def initConfig : Config :=
  { node := .rewrite,
    state := { retryCount := some 0, filterLevel := some 0,
               gradeDecision := none, filtersWidened := none },
    gradeCount := 0 }

/-- The retry counter as every node reads it: `state.get("retry_count", 0)`. -/
def rcOf (c : Config) : Nat := c.state.retryCount.getD 0

/-- The filter level as every node reads it: `state.get("filter_level", 0)`. -/
def flOf (c : Config) : Nat := c.state.filterLevel.getD 0

/-- Outcome of a LangGraph traversal step: either a running configuration,
or the InvalidUpdateError LangGraph raises when a node's return value is not
a dict of state updates — recording the node that returned it and the bare
value it returned. -/
inductive RunOutcome where
  | running (c : Config)
  | invalidUpdate (atNode : Node) (returned : String)
  deriving DecidableEq, Repr

/-- One transition of the compiled graph as LangGraph actually executes it:
every node except grade returns a dict patch, which is merged and followed
by the node's outgoing edge; the grade node (nodes/grade.py) returns the
bare string "yes"/"no" itself — `return "no"` / `return "yes"`, not a
`{"grade_decision": ...}` patch — which LangGraph cannot apply as a state
update, so it raises InvalidUpdateError and the run aborts.  In particular
no node of the repository ever writes `grade_decision`, and
route_after_grade never runs after a grade execution.  The error outcome is
absorbing; `oracle k` is again the k-th grade execution's decision string. -/
def stepProgram (oracle : Nat → String) (r : RunOutcome) : RunOutcome :=
  match r with
  | .invalidUpdate n s => .invalidUpdate n s
  | .running c =>
    match c.node with
    | .rewrite => .running { c with node := .retrieve }
    | .retrieve => .running { c with node := .grade }
    | .grade => .invalidUpdate .grade (oracle c.gradeCount)
    | .widenFilter =>
      .running { c with node := .retrieve, state := filter_widen_node c.state }
    | .incrementRetry =>
      .running { c with node := .rewrite, state := increment_retry c.state }
    | .websearch => .running { c with node := .generate }
    | .generate => .running { c with node := .endNode }
    | .endNode => .running c

/-- Configurations reachable by the workflow from the initial state, for a
fixed sequence of grade decisions. -/
inductive Reachable (oracle : Nat → String) : Config → Prop where
  | start : Reachable oracle initConfig
  | next : ∀ {c : Config}, Reachable oracle c → Reachable oracle (step oracle c)

/-- Offset used by the grade-count invariant: nodes later than grade in a
retrieve-grade round carry one extra executed grade. -/
def nodeOffset : Node → Nat
  | .rewrite => 0
  | .retrieve => 0
  | .grade => 0
  | _ => 1

/-- Inductive invariant of the traversal: the counters stay in range, the
guard of the node about to run holds, and the number of executed grades is
bounded by the position in the retry-by-filter-level grid. -/
def Inv (c : Config) : Prop :=
  rcOf c ≤ 2 ∧ flOf c ≤ 3 ∧
  (c.node = .incrementRetry → rcOf c < 2) ∧
  (c.node = .widenFilter → flOf c < 3) ∧
  c.gradeCount ≤ 4 * rcOf c + flOf c + nodeOffset c.node

/-- A sample document of relevance score 0.70, used to exercise the quality
boundaries. -/
def sampleDoc07 : Doc :=
  { pageContent := "doc", relevanceScore := some (7/10), origin := none,
    meta := "" }

/-- First of two documents sharing the first-100-character content
fingerprint while differing in score and metadata. -/
def dupDocA : Doc :=
  { pageContent := "shared content", relevanceScore := some (mkRat 1 1),
    origin := none, meta := "meta one" }

/-- Second of the two fingerprint-sharing documents (different metadata). -/
def dupDocB : Doc :=
  { pageContent := "shared content", relevanceScore := some (mkRat 1 2),
    origin := some "web_search", meta := "meta two" }

/-- The initial configuration satisfies the invariant. -/
theorem inv_init : Inv initConfig := by
  simp [Inv, initConfig, rcOf, flOf, nodeOffset]

/-- The invariant is preserved by every transition. -/
theorem inv_step (oracle : Nat → String) (c : Config) (h : Inv c) :
    Inv (step oracle c) := by
  obtain ⟨hrc, hfl, hinc, hwid, hk⟩ := h
  rcases c with ⟨node, s, k⟩
  simp only [rcOf, flOf] at hrc hfl hinc hwid hk
  cases node with
  | rewrite =>
    refine ⟨?_, ?_, ?_, ?_, ?_⟩ <;>
      simp_all [step, Inv, rcOf, flOf, nodeOffset] <;> omega
  | retrieve =>
    refine ⟨?_, ?_, ?_, ?_, ?_⟩ <;>
      simp_all [step, Inv, rcOf, flOf, nodeOffset] <;> omega
  | grade =>
    simp only [step, route_after_grade, Option.getD_some] at *
    split_ifs with h1 h2 h3 <;>
      (refine ⟨?_, ?_, ?_, ?_, ?_⟩ <;>
        simp_all [Inv, rcOf, flOf, nodeOffset] <;> omega)
  | widenFilter =>
    refine ⟨?_, ?_, ?_, ?_, ?_⟩ <;>
      simp_all [step, Inv, rcOf, flOf, nodeOffset, filter_widen_node] <;>
      split_ifs <;> omega
  | incrementRetry =>
    refine ⟨?_, ?_, ?_, ?_, ?_⟩ <;>
      simp_all [step, Inv, rcOf, flOf, nodeOffset, increment_retry] <;> omega
  | websearch =>
    refine ⟨?_, ?_, ?_, ?_, ?_⟩ <;>
      simp_all [step, Inv, rcOf, flOf, nodeOffset] <;> omega
  | generate =>
    refine ⟨?_, ?_, ?_, ?_, ?_⟩ <;>
      simp_all [step, Inv, rcOf, flOf, nodeOffset] <;> omega
  | endNode =>
    exact ⟨hrc, hfl, by simp_all [step], by simp_all [step],
      by simp_all [step, Inv, rcOf, flOf, nodeOffset]⟩

/-- Every reachable configuration satisfies the invariant. -/
theorem reachable_inv {oracle : Nat → String} {c : Config}
    (h : Reachable oracle c) : Inv c := by
  induction h with
  | start => exact inv_init
  | next _ ih => exact inv_step _ _ ih

/-- How one transition touches the two counters: only the increment-retry
node changes `retry_count`, and nothing else ever writes 0 into a nonzero
`filter_level`. -/
theorem step_rc_fl (oracle : Nat → String) (c : Config) :
    (c.node = .incrementRetry →
      rcOf (step oracle c) = rcOf c + 1 ∧ flOf (step oracle c) = 0) ∧
    (c.node ≠ .incrementRetry →
      rcOf (step oracle c) = rcOf c ∧
        (flOf (step oracle c) = 0 → flOf c = 0)) := by
  rcases c with ⟨node, s, k⟩
  cases node <;>
    simp [step, rcOf, flOf, increment_retry, filter_widen_node,
      route_after_grade] <;>
    split_ifs <;> simp_all

/-- C2: in every reachable configuration (initial included) the retry counter
stays in [0, 2] and the filter level in [0, 3]; the filter level is written
back to 0 exactly by the increment-retry execution, and no other node
execution changes the retry counter or resets a nonzero filter level to 0. -/
theorem retry_filter_invariant (oracle : Nat → String) (c : Config)
    (h : Reachable oracle c) :
    rcOf c ≤ 2 ∧ flOf c ≤ 3 ∧
    (c.node = .incrementRetry →
      rcOf (step oracle c) = rcOf c + 1 ∧ flOf (step oracle c) = 0) ∧
    (c.node ≠ .incrementRetry →
      rcOf (step oracle c) = rcOf c ∧
        (flOf (step oracle c) = 0 → flOf c = 0)) := by
  have hi := reachable_inv h
  exact ⟨hi.1, hi.2.1, (step_rc_fl oracle c).1, (step_rc_fl oracle c).2⟩

/-- Witness for C2 at the (reachable) initial configuration. -/
theorem retry_filter_invariant_witness :
    Reachable (fun _ => "no") initConfig ∧
    (rcOf initConfig ≤ 2 ∧ flOf initConfig ≤ 3 ∧
      (initConfig.node = .incrementRetry →
        rcOf (step (fun _ => "no") initConfig) = rcOf initConfig + 1 ∧
          flOf (step (fun _ => "no") initConfig) = 0) ∧
      (initConfig.node ≠ .incrementRetry →
        rcOf (step (fun _ => "no") initConfig) = rcOf initConfig ∧
          (flOf (step (fun _ => "no") initConfig) = 0 →
            flOf initConfig = 0))) :=
  ⟨Reachable.start, retry_filter_invariant (fun _ => "no") initConfig
    Reachable.start⟩

/-- A program transition that survives (stays running) performs exactly the
documented-semantics transition: the two models differ only in the grade
execution, which under `stepProgram` never survives. -/
theorem stepProgram_running_step (oracle : Nat → String) (c c' : Config)
    (h : stepProgram oracle (.running c) = .running c') :
    c' = step oracle c := by
  rcases c with ⟨node, s, k⟩
  cases node <;> simp_all [stepProgram, step]

/-- Simulation: every configuration the program reaches is reachable under
the documented decision semantics, so invariants over `Reachable` cover the
program's runs. -/
theorem stepProgram_running_reachable (oracle : Nat → String) :
    ∀ (n : Nat) (c : Config),
      (stepProgram oracle)^[n] (.running initConfig) = .running c →
      Reachable oracle c := by
  intro n
  induction n with
  | zero =>
    intro c hc
    simp only [Function.iterate_zero_apply, RunOutcome.running.injEq] at hc
    exact hc ▸ Reachable.start
  | succ n ih =>
    intro c hc
    rw [Function.iterate_succ_apply'] at hc
    rcases hr : (stepProgram oracle)^[n] (.running initConfig) with c0 | ⟨nd, s⟩
    · rw [hr] at hc
      rw [stepProgram_running_step oracle c0 c hc]
      exact Reachable.next (ih c0 hr)
    · rw [hr] at hc
      simp [stepProgram] at hc

/-- C1 (code bug): grade.py returns its decision as the bare string
"yes"/"no" instead of a `{"grade_decision": ...}` patch, so LangGraph
aborts every run with InvalidUpdateError at its first grade execution (the
third node execution); no surviving node execution ever writes
`grade_decision`; and route_after_grade, reading the never-written key with
default "no", could not route an accepted grade to generate — the claimed
post-grade transition table is the documented intent (the docstrings of
build_graph and route_after_grade), not what the program does. -/
theorem grade_return_aborts_run (oracle : Nat → String) :
    (stepProgram oracle)^[3] (.running initConfig) =
      .invalidUpdate .grade (oracle 0) ∧
    (∀ c c' : Config, stepProgram oracle (.running c) = .running c' →
      c'.state.gradeDecision = c.state.gradeDecision) ∧
    (∀ s : GState, s.gradeDecision = none →
      route_after_grade s ≠ .generate) := by
  refine ⟨rfl, ?_, ?_⟩
  · intro c c' h
    rcases c with ⟨node, s, k⟩
    cases node <;>
      simp only [stepProgram, RunOutcome.running.injEq] at h <;>
      first
        | (subst h; simp [filter_widen_node, increment_retry])
        | simp_all
  · intro s h
    simp only [route_after_grade, h, Option.getD_none]
    split_ifs <;> simp_all

/-- C3 (code bug): no run of the compiled graph ever reaches END — under
every sequence of grade decisions the run is dead from its third node
execution on, aborted by the InvalidUpdateError that grade.py's bare-string
return provokes, so the claimed bounded march to END never happens. -/
theorem no_run_reaches_end (oracle : Nat → String) :
    (∀ (n : Nat) (c : Config),
      (stepProgram oracle)^[n] (.running initConfig) = .running c →
      c.node ≠ .endNode) ∧
    (∀ n : Nat, 3 ≤ n →
      (stepProgram oracle)^[n] (.running initConfig) =
        .invalidUpdate .grade (oracle 0)) := by
  have habs : ∀ n : Nat, 3 ≤ n →
      (stepProgram oracle)^[n] (.running initConfig) =
        .invalidUpdate .grade (oracle 0) := by
    intro n hn
    induction n with
    | zero => omega
    | succ m ih =>
      rcases Nat.lt_or_ge m 3 with hlt | hge
      · have hm : m = 2 := by omega
        subst hm
        rfl
      · rw [Function.iterate_succ_apply', ih hge]
        rfl
  refine ⟨?_, habs⟩
  intro n c hc
  rcases Nat.lt_or_ge n 3 with hlt | hge
  · have hn : n = 0 ∨ n = 1 ∨ n = 2 := by omega
    rcases hn with rfl | rfl | rfl
    · rw [show (stepProgram oracle)^[0] (.running initConfig) =
        .running initConfig from rfl] at hc
      injection hc with h'
      rw [← h']
      decide
    · rw [show (stepProgram oracle)^[1] (.running initConfig) =
        .running { initConfig with node := .retrieve } from rfl] at hc
      injection hc with h'
      rw [← h']
      decide
    · rw [show (stepProgram oracle)^[2] (.running initConfig) =
        .running { initConfig with node := .grade } from rfl] at hc
      injection hc with h'
      rw [← h']
      decide
  · rw [habs n hge] at hc
    simp at hc

/-- Stage A, first check: no retrieved documents always grades "no". -/
theorem grade_node_no_docs (θ : ℚ) (llm : LLMResult) :
    grade_node θ [] llm = "no" := rfl

/-- Stage A, second check: when no document reaches the threshold the grade
is "no", whatever the LLM oracle would answer. -/
theorem grade_node_below_threshold (θ : ℚ) (docs : List Doc)
    (llm : LLMResult) (h : ∀ d ∈ docs, d.relevanceScore.getD 0 < θ) :
    grade_node θ docs llm = "no" := by
  rcases docs with _ | ⟨d, rest⟩
  · rfl
  · have hfil : ((d :: rest).filter
        (fun doc => decide (θ ≤ doc.relevanceScore.getD 0))).isEmpty = true := by
      rw [List.isEmpty_iff, List.filter_eq_nil_iff]
      intro a ha
      simpa using not_le.mpr (h a ha)
    simp [grade_node, hfil]

/-- When Stage A passes, the filter of relevant documents is nonempty. -/
theorem grade_filter_nonempty (θ : ℚ) (docs : List Doc)
    (hrel : ∃ d ∈ docs, θ ≤ d.relevanceScore.getD 0) :
    (docs.filter
      (fun doc => decide (θ ≤ doc.relevanceScore.getD 0))).isEmpty = false := by
  obtain ⟨d, hd, hs⟩ := hrel
  rcases hfe : (docs.filter
      (fun doc => decide (θ ≤ doc.relevanceScore.getD 0))).isEmpty with _ | _
  · exact hfe
  · rw [List.isEmpty_iff, List.filter_eq_nil_iff] at hfe
    exact absurd (by simpa using hs) (hfe d hd)

/-- Stage B on a successful call: grade "yes" exactly when the lowered,
stripped completion contains "yes". -/
theorem grade_node_ok (θ : ℚ) (docs : List Doc) (content : String)
    (hne : docs ≠ [])
    (hrel : ∃ d ∈ docs, θ ≤ d.relevanceScore.getD 0) :
    grade_node θ docs (.ok content) =
      if strContains (py_lower (py_strip content)) "yes" then "yes"
      else "no" := by
  rcases docs with _ | ⟨d, rest⟩
  · exact absurd rfl hne
  · simp [grade_node, grade_filter_nonempty θ (d :: rest) hrel]

/-- Stage B on a raised call: grade defaults to "yes". -/
theorem grade_node_failure (θ : ℚ) (docs : List Doc) (hne : docs ≠ [])
    (hrel : ∃ d ∈ docs, θ ≤ d.relevanceScore.getD 0) :
    grade_node θ docs .failure = "yes" := by
  rcases docs with _ | ⟨d, rest⟩
  · exact absurd rfl hne
  · simp [grade_node, grade_filter_nonempty θ (d :: rest) hrel]

/-- C4: Stage A is authoritative — an empty document list, and likewise a
list in which no document's relevance score reaches the category threshold,
grades "no" for every possible LLM outcome (the LLM is never consulted). -/
theorem stage_a_authoritative (θ : ℚ) (docs : List Doc) (llm : LLMResult) :
    (docs = [] → grade_node θ docs llm = "no") ∧
    ((∀ d ∈ docs, d.relevanceScore.getD 0 < θ) →
      grade_node θ docs llm = "no") := by
  constructor
  · rintro rfl
    exact grade_node_no_docs θ llm
  · exact grade_node_below_threshold θ docs llm

/-- Witness for C4: zero documents, and one document below the threshold,
both grade "no" even when the LLM answers "yes". -/
theorem stage_a_authoritative_witness :
    grade_node (mkRat 2 5) [] (.ok "yes") = "no" ∧
    grade_node (mkRat 2 5)
      [{ pageContent := "d", relevanceScore := some (mkRat 1 10),
         origin := none, meta := "" }] (.ok "yes") = "no" :=
  ⟨(stage_a_authoritative (mkRat 2 5) [] (.ok "yes")).1 rfl,
   (stage_a_authoritative (mkRat 2 5)
      [{ pageContent := "d", relevanceScore := some (mkRat 1 10),
         origin := none, meta := "" }] (.ok "yes")).2 (by decide)⟩

/-- C5 counterexample: a state that passes Stage A and an LLM completion
"no" (which does not contain "yes") grades "no", not the claimed default
"accept". -/
theorem nonyes_completion_rejects :
    grade_node (mkRat 2 5)
      [{ pageContent := "relevant doc", relevanceScore := some (mkRat 1 2),
         origin := none, meta := "" }] (.ok "no") ≠ "yes" ∧
    grade_node (mkRat 2 5)
      [{ pageContent := "relevant doc", relevanceScore := some (mkRat 1 2),
         origin := none, meta := "" }] (.ok "no") = "no" := by decide

/-- C5 (amended): with Stage A passed, the completion is parsed
case-insensitively for the substring "yes": a completion containing it
grades "yes", a completion not containing it grades "no", and only a failed
LLM call defaults the decision to "yes". -/
theorem stage_b_parsing (θ : ℚ) (docs : List Doc) (hne : docs ≠ [])
    (hrel : ∃ d ∈ docs, θ ≤ d.relevanceScore.getD 0) :
    (∀ content, strContains (py_lower (py_strip content)) "yes" = true →
      grade_node θ docs (.ok content) = "yes") ∧
    (∀ content, strContains (py_lower (py_strip content)) "yes" = false →
      grade_node θ docs (.ok content) = "no") ∧
    grade_node θ docs .failure = "yes" := by
  refine ⟨?_, ?_, grade_node_failure θ docs hne hrel⟩
  · intro content hc
    rw [grade_node_ok θ docs content hne hrel, if_pos hc]
  · intro content hc
    rw [grade_node_ok θ docs content hne hrel, if_neg (by simp [hc])]

/-- Witness for C5 (amended): one relevant document; the completion
" YES. " is accepted case-insensitively and a raised call defaults to
"yes". -/
theorem stage_b_parsing_witness :
    grade_node (mkRat 2 5)
      [{ pageContent := "relevant doc", relevanceScore := some (mkRat 1 2),
         origin := none, meta := "" }] (.ok " YES. ") = "yes" ∧
    grade_node (mkRat 2 5)
      [{ pageContent := "relevant doc", relevanceScore := some (mkRat 1 2),
         origin := none, meta := "" }] .failure = "yes" :=
  ⟨(stage_b_parsing (mkRat 2 5)
      [{ pageContent := "relevant doc", relevanceScore := some (mkRat 1 2),
         origin := none, meta := "" }] (by decide) (by decide)).1
      " YES. " (by decide),
   (stage_b_parsing (mkRat 2 5)
      [{ pageContent := "relevant doc", relevanceScore := some (mkRat 1 2),
         origin := none, meta := "" }] (by decide) (by decide)).2.2⟩

/-- On a nonempty result set, assess_search_quality reports the average
relevance, the count, and the bucket given by the two threshold tests. -/
theorem assess_eq_of_ne_nil (docs : List Doc) (θ : ℚ) (h : docs ≠ []) :
    assess_search_quality docs θ =
      { quality :=
          if 5 ≤ docs.length ∧ 7/10 ≤ avgRelevance docs then "high"
          else if 3 ≤ docs.length ∧ θ ≤ avgRelevance docs then "medium"
          else "low",
        avg_score := avgRelevance docs,
        count := docs.length } := by
  rcases docs with _ | ⟨d, rest⟩
  · exact absurd rfl h
  · simp [assess_search_quality, avgRelevance]

/-- C6: the quality bucket is exactly "high" iff count ≥ 5 and average score
≥ 0.7, otherwise "medium" iff count ≥ 3 and average score ≥ the category
threshold, otherwise "low"; the reported average is 0 on an empty list; and
the boundaries are inclusive: five documents of score 0.70 assess "high" and
four documents of score 0.70 assess "medium". -/
theorem assess_quality_characterization (docs : List Doc) (θ : ℚ) :
    (assess_search_quality docs θ).avg_score = avgRelevance docs ∧
    (assess_search_quality docs θ).count = docs.length ∧
    ((assess_search_quality docs θ).quality = "high" ↔
      5 ≤ docs.length ∧ 7/10 ≤ avgRelevance docs) ∧
    ((assess_search_quality docs θ).quality = "medium" ↔
      ¬ (5 ≤ docs.length ∧ 7/10 ≤ avgRelevance docs) ∧
      (3 ≤ docs.length ∧ θ ≤ avgRelevance docs)) ∧
    ((assess_search_quality docs θ).quality = "low" ↔
      ¬ (5 ≤ docs.length ∧ 7/10 ≤ avgRelevance docs) ∧
      ¬ (3 ≤ docs.length ∧ θ ≤ avgRelevance docs)) ∧
    assess_search_quality [] θ =
      { quality := "low", avg_score := 0, count := 0 } ∧
    (assess_search_quality (List.replicate 5 sampleDoc07) (2/5)).quality =
      "high" ∧
    (assess_search_quality (List.replicate 4 sampleDoc07) (2/5)).quality =
      "medium" := by
  have hrep : ∀ n : Nat, n ≠ 0 →
      avgRelevance (List.replicate n sampleDoc07) = 7/10 := by
    intro n hn
    have hn' : (n:ℚ) ≠ 0 := Nat.cast_ne_zero.mpr hn
    have hln : (List.replicate n sampleDoc07).isEmpty = false := by
      cases n with
      | zero => exact absurd rfl hn
      | succ m => simp [List.replicate]
    have hsc : sampleDoc07.relevanceScore.getD 0 = 7/10 := rfl
    simp only [avgRelevance, hln, Bool.false_eq_true, if_false,
      List.map_replicate, hsc, List.sum_replicate,
      List.length_replicate, nsmul_eq_mul]
    rw [mul_div_cancel_left₀ _ hn']
  have hcon1 : (assess_search_quality (List.replicate 5 sampleDoc07)
      (2/5)).quality = "high" := by
    rw [assess_eq_of_ne_nil _ _ (by simp), hrep 5 (by norm_num)]
    norm_num
  have hcon2 : (assess_search_quality (List.replicate 4 sampleDoc07)
      (2/5)).quality = "medium" := by
    rw [assess_eq_of_ne_nil _ _ (by simp), hrep 4 (by norm_num)]
    norm_num
  rcases hd : docs with _ | ⟨d, rest⟩
  · refine ⟨by simp [assess_search_quality, avgRelevance], ?_, ?_, ?_, ?_,
      rfl, hcon1, hcon2⟩ <;>
      simp [assess_search_quality, avgRelevance]
  · rw [assess_eq_of_ne_nil (d :: rest) θ (by simp)]
    refine ⟨rfl, rfl, ?_, ?_, ?_, rfl, hcon1, hcon2⟩ <;>
      split_ifs with h1 h2 <;> simp_all
/-- C9 counterexample: the score formula is clamped only from below, not "on
both sides" — at distance -1 it evaluates to 3/2, outside [0, 1], so the
claimed bound for any reported distance value is false. -/
theorem relevance_score_not_clamped_above :
    relevance_score (-1) = 3/2 ∧ ¬ relevance_score (-1) ≤ 1 := by
  have h1 : relevance_score (-1) = 3/2 := by
    have h : (1:ℚ) - (-1)/2 = 3/2 := by norm_num
    rw [relevance_score, h, max_eq_right (by norm_num : (0:ℚ) ≤ 3/2)]
  exact ⟨h1, by rw [h1]; norm_num⟩

/-- C9 (amended): for every nonnegative distance (cosine distances are
nonnegative), the score max(0, 1 - distance/2) lies in [0, 1] — clamped
below by the max, and at most 1 because the distance is nonnegative. -/
theorem relevance_score_clamped (distance : ℚ) (h : 0 ≤ distance) :
    0 ≤ relevance_score distance ∧ relevance_score distance ≤ 1 := by
  constructor
  · exact le_max_left 0 _
  · exact max_le (by norm_num) (by linarith)

/-- Witness for C9 (amended) at distance 2. -/
theorem relevance_score_clamped_witness :
    (0:ℚ) ≤ 2 ∧ (0 ≤ relevance_score 2 ∧ relevance_score 2 ≤ 1) :=
  ⟨by norm_num, relevance_score_clamped 2 (by norm_num)⟩

/-- C8: when every LLM call raises, the rewrite node returns the original
query unchanged, the grade node resolves to "yes" whenever Stage A passed
and to "no" exactly when Stage A already rejected, and the generate node
returns the fixed apology answer with no sources; each node returns a value
instead of propagating the exception. -/
theorem llm_failure_degrades (q : String) (θ : ℚ) (docs web : List Doc) :
    rewrite_node q .failure = q ∧
    (docs ≠ [] → (∃ d ∈ docs, θ ≤ d.relevanceScore.getD 0) →
      grade_node θ docs .failure = "yes") ∧
    (docs = [] → grade_node θ docs .failure = "no") ∧
    ((∀ d ∈ docs, d.relevanceScore.getD 0 < θ) →
      grade_node θ docs .failure = "no") ∧
    generate_node docs web .failure =
      { answer := apologyAnswer, sources := [] } := by
  refine ⟨?_, ?_, ?_, ?_, rfl⟩
  · rw [rewrite_node]
    split_ifs with h
    · exact h.symm
    · rfl
  · exact fun hne hrel => grade_node_failure θ docs hne hrel
  · rintro rfl
    exact grade_node_no_docs θ .failure
  · exact grade_node_below_threshold θ docs .failure

/-- Witness for C8 with a one-document state that passes Stage A. -/
theorem llm_failure_degrades_witness :
    rewrite_node "일자리 추천" .failure = "일자리 추천" ∧
    grade_node (mkRat 2 5)
      [{ pageContent := "relevant doc", relevanceScore := some (mkRat 1 2),
         origin := none, meta := "" }] .failure = "yes" ∧
    generate_node
      [{ pageContent := "relevant doc", relevanceScore := some (mkRat 1 2),
         origin := none, meta := "" }] [] .failure =
      { answer := apologyAnswer, sources := [] } :=
  ⟨(llm_failure_degrades "일자리 추천" (mkRat 2 5)
      [{ pageContent := "relevant doc", relevanceScore := some (mkRat 1 2),
         origin := none, meta := "" }] []).1,
   (llm_failure_degrades "일자리 추천" (mkRat 2 5)
      [{ pageContent := "relevant doc", relevanceScore := some (mkRat 1 2),
         origin := none, meta := "" }] []).2.1 (by decide) (by decide),
   (llm_failure_degrades "일자리 추천" (mkRat 2 5)
      [{ pageContent := "relevant doc", relevanceScore := some (mkRat 1 2),
         origin := none, meta := "" }] []).2.2.2.2⟩

/-- The dedup loop only ever skips elements, so its output is a sublist of
its input (relative order preserved). -/
theorem dedupAux_sublist (docs : List Doc) :
    ∀ seen : List String, List.Sublist (dedupAux docs seen) docs := by
  induction docs with
  | nil => intro seen; simp [dedupAux]
  | cons d rest ih =>
    intro seen
    simp only [dedupAux]
    split_ifs with h
    · exact (ih seen).trans (List.sublist_cons_self d rest)
    · exact List.Sublist.cons₂ d (ih (fingerprint d :: seen))

/-- Membership in the seen set after processing a list: the old entries plus
every processed fingerprint. -/
theorem mem_seenAfter (docs : List Doc) :
    ∀ (seen : List String) (s : String),
      s ∈ seenAfter docs seen ↔
        s ∈ seen ∨ ∃ d ∈ docs, fingerprint d = s := by
  induction docs with
  | nil => intro seen s; simp [seenAfter]
  | cons d rest ih =>
    intro seen s
    simp only [seenAfter]
    split_ifs with h
    · rw [ih]
      constructor
      · rintro (hs | ⟨x, hx, rfl⟩)
        · exact Or.inl hs
        · exact Or.inr ⟨x, List.mem_cons_of_mem d hx, rfl⟩
      · rintro (hs | ⟨x, hx, rfl⟩)
        · exact Or.inl hs
        · rcases List.mem_cons.mp hx with rfl | hx'
          · exact Or.inl h
          · exact Or.inr ⟨x, hx', rfl⟩
    · rw [ih]
      constructor
      · rintro (hs | ⟨x, hx, rfl⟩)
        · rcases List.mem_cons.mp hs with rfl | hs'
          · exact Or.inr ⟨d, List.mem_cons_self d rest, rfl⟩
          · exact Or.inl hs'
        · exact Or.inr ⟨x, List.mem_cons_of_mem d hx, rfl⟩
      · rintro (hs | ⟨x, hx, rfl⟩)
        · exact Or.inl (List.mem_cons_of_mem _ hs)
        · rcases List.mem_cons.mp hx with rfl | hx'
          · exact Or.inl (List.mem_cons_self _ _)
          · exact Or.inr ⟨x, hx', rfl⟩

/-- Processing a concatenation: the second half is deduplicated against the
seen set accumulated over the first half. -/
theorem dedupAux_append (xs : List Doc) :
    ∀ (ys : List Doc) (seen : List String),
      dedupAux (xs ++ ys) seen =
        dedupAux xs seen ++ dedupAux ys (seenAfter xs seen) := by
  induction xs with
  | nil => intro ys seen; simp [dedupAux, seenAfter]
  | cons d rest ih =>
    intro ys seen
    simp only [List.cons_append, dedupAux, seenAfter]
    split_ifs with h
    · exact ih ys seen
    · simp [ih ys (fingerprint d :: seen)]

/-- A list all of whose fingerprints are already seen deduplicates to []. -/
theorem dedupAux_eq_nil (ys : List Doc) :
    ∀ seen : List String, (∀ d ∈ ys, fingerprint d ∈ seen) →
      dedupAux ys seen = [] := by
  induction ys with
  | nil => intro seen _; rfl
  | cons d rest ih =>
    intro seen h
    have hd := h d (List.mem_cons_self d rest)
    simp only [dedupAux, hd, if_pos]
    exact ih seen fun x hx => h x (List.mem_cons_of_mem d hx)

/-- Every document kept by the dedup loop is the first element of the input
carrying its fingerprint, and its fingerprint was not previously seen. -/
theorem dedupAux_first (docs : List Doc) :
    ∀ (seen : List String) (d : Doc), d ∈ dedupAux docs seen →
      fingerprint d ∉ seen ∧
        docs.find? (fun x => fingerprint x == fingerprint d) = some d := by
  induction docs with
  | nil => intro seen d h; simp [dedupAux] at h
  | cons doc rest ih =>
    intro seen d h
    simp only [dedupAux] at h
    split_ifs at h with hin
    · obtain ⟨hnot, hfind⟩ := ih seen d h
      have hne : ¬ (fingerprint doc == fingerprint d) = true := by
        intro hbe
        exact hnot (eq_of_beq hbe ▸ hin)
      exact ⟨hnot, by rw [List.find?_cons_of_neg rest hne, hfind]⟩
    · rcases List.mem_cons.mp h with rfl | hmem
      · exact ⟨hin, List.find?_cons_of_pos rest (beq_self_eq_true _)⟩
      · obtain ⟨hnot, hfind⟩ := ih (fingerprint doc :: seen) d hmem
        have hne : ¬ (fingerprint doc == fingerprint d) = true := by
          intro hbe
          exact hnot (eq_of_beq hbe ▸ List.mem_cons_self _ _)
        exact ⟨fun hs => hnot (List.mem_cons_of_mem _ hs),
          by rw [List.find?_cons_of_neg rest hne, hfind]⟩

/-- Every input fingerprint survives deduplication (either it was already
seen, or some kept document carries it). -/
theorem dedupAux_covers (docs : List Doc) :
    ∀ (seen : List String) (d : Doc), d ∈ docs →
      fingerprint d ∈ seen ∨
        ∃ d2 ∈ dedupAux docs seen, fingerprint d2 = fingerprint d := by
  induction docs with
  | nil => intro seen d h; cases h
  | cons doc rest ih =>
    intro seen d h
    rcases List.mem_cons.mp h with rfl | hmem
    · by_cases hin : fingerprint d ∈ seen
      · exact Or.inl hin
      · exact Or.inr ⟨d, by simp [dedupAux, hin], rfl⟩
    · by_cases hin : fingerprint doc ∈ seen
      · rcases ih seen d hmem with h1 | ⟨d2, h2, h3⟩
        · exact Or.inl h1
        · exact Or.inr ⟨d2, by simp [dedupAux, hin]; exact h2, h3⟩
      · rcases ih (fingerprint doc :: seen) d hmem with h1 | ⟨d2, h2, h3⟩
        · rcases List.mem_cons.mp h1 with heq | hseen
          · exact Or.inr ⟨doc, by simp [dedupAux, hin], heq.symm⟩
          · exact Or.inl hseen
        · exact Or.inr ⟨d2, by simp [dedupAux, hin]; exact Or.inr h2, h3⟩

/-- C7: deduplication keys on the first-100-character fingerprint, keeps the
first occurrence of each fingerprint, preserves relative order (the output
is a sublist of the input), no fingerprint is lost, and merging is
idempotent: merging L with a copy of itself equals merging L alone; two
documents sharing the content prefix but differing in metadata collapse to
the first-seen one. -/
theorem dedup_keeps_first_and_idempotent (L : List Doc) :
    merge_node L L = merge_node L [] ∧
    deduplicate_docs (L ++ L) = deduplicate_docs L ∧
    List.Sublist (deduplicate_docs L) L ∧
    (∀ d ∈ deduplicate_docs L,
      L.find? (fun x => fingerprint x == fingerprint d) = some d) ∧
    (∀ d ∈ L, ∃ d2 ∈ deduplicate_docs L,
      fingerprint d2 = fingerprint d) ∧
    deduplicate_docs [dupDocA, dupDocB] = [dupDocA] := by
  have hidem : deduplicate_docs (L ++ L) = deduplicate_docs L := by
    rcases L with _ | ⟨d, rest⟩
    · rfl
    · show dedupAux ((d :: rest) ++ (d :: rest)) [] = dedupAux (d :: rest) []
      rw [dedupAux_append, dedupAux_eq_nil (d :: rest) _
        (fun x hx => (mem_seenAfter (d :: rest) [] (fingerprint x)).mpr
          (Or.inr ⟨x, hx, rfl⟩)), List.append_nil]
  refine ⟨?_, hidem, ?_, ?_, ?_, ?_⟩
  · rw [merge_node, merge_node, List.append_nil, hidem]
  · rcases L with _ | ⟨d, rest⟩
    · simp [deduplicate_docs]
    · simp only [deduplicate_docs, List.isEmpty_cons]
      simpa using dedupAux_sublist (d :: rest) []
  · intro d hd
    rcases L with _ | ⟨x, rest⟩
    · simp [deduplicate_docs] at hd
    · simp only [deduplicate_docs, List.isEmpty_cons] at hd
      exact (dedupAux_first (x :: rest) [] d (by simpa using hd)).2
  · intro d hd
    rcases L with _ | ⟨x, rest⟩
    · cases hd
    · rcases dedupAux_covers (x :: rest) [] d hd with h1 | ⟨d2, h2, h3⟩
      · cases h1
      · exact ⟨d2, by simpa [deduplicate_docs] using h2, h3⟩
  · decide

/-- Witness for C7: the fingerprint-sharing pair keeps only the first
document, which is the first occurrence of its fingerprint, and the second
document's fingerprint is still represented. -/
theorem dedup_keeps_first_and_idempotent_witness :
    [dupDocA, dupDocB].find?
      (fun x => fingerprint x == fingerprint dupDocA) = some dupDocA ∧
    ∃ d2 ∈ deduplicate_docs [dupDocA, dupDocB],
      fingerprint d2 = fingerprint dupDocB :=
  ⟨(dedup_keeps_first_and_idempotent [dupDocA, dupDocB]).2.2.2.1 dupDocA
      (by decide),
   (dedup_keeps_first_and_idempotent [dupDocA, dupDocB]).2.2.2.2.1 dupDocB
      (by decide)⟩

/-- C10: an absent or empty rewritten query makes every retrieval-side node
fall back to the original query (an absent rewritten query behaves exactly
like carrying the original), and when both queries are empty the enhanced
retrieve node returns no documents with quality "low", the plain retrieve
node returns no documents, and the websearch node returns no web documents
with a skip trace entry of reason "empty_query" — in each case for every
possible collaborator, i.e. without the collaborator being consulted. -/
theorem empty_query_fallback
    (retriever : RetrieverInput → Except Unit (List Doc))
    (search : String → Except Unit String) (θ : ℚ) (p : Option Profile)
    (fl : Nat) (key : String) (tr : List TraceEntry) (q : String) :
    effective_query none q = q ∧
    effective_query (some "") q = q ∧
    (q ≠ "" → enhanced_retrieve_node retriever θ none q p fl =
      enhanced_retrieve_node retriever θ (some q) q p fl) ∧
    enhanced_retrieve_node retriever θ none "" p fl =
      { documents := [], search_quality := "low",
        avg_relevance_score := none } ∧
    enhanced_retrieve_node retriever θ (some "") "" p fl =
      { documents := [], search_quality := "low",
        avg_relevance_score := none } ∧
    retrieve_node retriever none "" p = [] ∧
    retrieve_node retriever (some "") "" p = [] ∧
    websearch_node key search tr none "" =
      { web_documents := [],
        retrieval_trace := tr ++ [.webSearchSkipped "empty_query"] } ∧
    websearch_node key search tr (some "") "" =
      { web_documents := [],
        retrieval_trace := tr ++ [.webSearchSkipped "empty_query"] } := by
  refine ⟨rfl, rfl, ?_, rfl, rfl, rfl, rfl, ?_, ?_⟩
  · intro hq
    simp [enhanced_retrieve_node, effective_query, hq]
  · simp [websearch_node, effective_query]
  · simp [websearch_node, effective_query]

/-- Witness for C10: with a one-word query both spellings of a missing
rewritten query retrieve identically. -/
theorem empty_query_fallback_witness :
    enhanced_retrieve_node (fun _ => .ok []) (mkRat 2 5) none "일자리"
      none 0 =
    enhanced_retrieve_node (fun _ => .ok []) (mkRat 2 5) (some "일자리")
      "일자리" none 0 :=
  (empty_query_fallback (fun _ => .ok []) (fun _ => .error ()) (mkRat 2 5)
    none 0 "" [] "일자리").2.2.1 (by decide)

end Chinchilla
